import Mathlib

/-!
Shallow embedding of `src/pyrate/linrate.py` (function `linear_rate`):
pixel-by-pixel linear rate (velocity) estimation by iterative weighted
least squares with Danish-method outlier rejection.

Modelling conventions:
* numpy floats are modelled as exact reals (`ℝ`); floating-point rounding
  is out of scope.  A cell that may hold numpy `nan` is modelled as
  `Option ℝ` (`none` = NaN): the only NaN source in the program is the
  observation stack `obs` and the three output grids.
* `scipy.linalg.cholesky(A, lower)` is embedded by the standard
  Cholesky–Banachiewicz recursion reading only the relevant triangle of
  its argument; it returns `none` (the `LinAlgError` of LAPACK `potrf`)
  when a pivot is not positive.  `cholesky(A)` with `lower` omitted
  produces the upper factor, embedded here as the transpose of the lower
  factor of the transposed argument (both read the upper triangle of `A`).
* `scipy.linalg.solve` and `scipy.linalg.inv` are exact in exact
  arithmetic: `solve(T, x) = T⁻¹x` (forward substitution, since every `T`
  passed is lower triangular with positive diagonal) and
  `inv(V) = adjugate(V) / det(V)`, raising `LinAlgError` iff `det V = 0`.
  `solve` and `cholesky` validate inputs (`check_finite=True`) and raise
  `ValueError` on NaN; the observation vector is the only argument that
  can carry NaN, at line 75 of the source.
* the design matrix `B` has a single row (one predictor), so the
  economy-size QR step of lines 79-83 (`A = Q·R`, `z = Qᵀb`, `v = R⁻¹z`)
  collapses exactly: `Q = A/ρ`, `R = (ρ)` with `ρ² = A·A`, hence
  `v = (A·b)/(A·A)`, the sign of `R` cancelling; `solve(R, z)` raises
  (singular `R`) iff `A·A = 0`.  We embed that exact value.
* python exceptions abort the whole `linear_rate` call: the embedding
  threads `Except PErr` through the per-pixel fold, so the first failing
  pixel (row-major order) determines the result.
-/

namespace PyRate

/-- NaN-or-number cell: `none` models numpy `nan`. -/
abbrev FVal := Option ℝ

/-! ### List-level linear algebra (vectors as `List ℝ`, matrices as row lists) -/

/-- Dot product of two lists (numpy `dot` on equal-length vectors). -/
noncomputable def dot (a b : List ℝ) : ℝ := ((a.zip b).map fun p => p.1 * p.2).sum

/-- Sum of squares of a list. -/
noncomputable def sumSq (a : List ℝ) : ℝ := dot a a

/-- Matrix–vector product, rows as lists. -/
noncomputable def matVec (M : List (List ℝ)) (x : List ℝ) : List ℝ := M.map fun row => dot row x

/-- Transpose of a square matrix given as a list of rows. -/
noncomputable def transposeL (M : List (List ℝ)) : List (List ℝ) :=
  (List.range M.length).map fun i => M.map fun row => row.getD i 0

/-- Minor: delete row `r` and column `c`. -/
noncomputable def minorL (M : List (List ℝ)) (r c : ℕ) : List (List ℝ) :=
  (M.eraseIdx r).map fun row => row.eraseIdx c

/-- Determinant by Laplace expansion along the first row (exact semantics of
the determinant used by `scipy.linalg.inv` to decide singularity). -/
noncomputable def detL : List (List ℝ) → ℝ
  | [] => 1
  | r :: rest =>
    ((List.range r.length).map fun c =>
      (-1 : ℝ) ^ c * r.getD c 0 * detL (rest.map fun row => row.eraseIdx c)).sum
termination_by M => M.length
decreasing_by simp [List.length_map]

/-- Adjugate (transposed cofactor matrix). -/
noncomputable def adjL (M : List (List ℝ)) : List (List ℝ) :=
  (List.range M.length).map fun i => (List.range M.length).map fun j =>
    (-1 : ℝ) ^ (i + j) * detL (minorL M j i)

/-- Exact matrix inverse, `adjugate / det`: the value `scipy.linalg.inv`
returns when `det ≠ 0` (it raises `LinAlgError` when `det = 0`; that check
is made at the call sites below). -/
noncomputable def invL (M : List (List ℝ)) : List (List ℝ) :=
  (adjL M).map fun row => row.map fun x => x / detL M

/-- One row of the Cholesky–Banachiewicz recursion: given the already
computed rows `prev` (row `j` has length `j+1`) and row `i = prev.length`
of the input (its lower-triangle entries), compute the off-diagonal
entries of row `i` of the lower factor. -/
noncomputable def cholOff (Arow : List ℝ) (prev : List (List ℝ)) : List ℝ :=
  prev.foldl (fun acc prow =>
    acc ++ [(Arow.getD acc.length 0 - dot (prow.take acc.length) acc) /
            prow.getD (prow.length - 1) 0]) []

/-- One full new row of the lower Cholesky factor, `none` when the pivot is
not positive (LAPACK `potrf` failure: the matrix is not positive definite). -/
noncomputable def cholStep (Arow : List ℝ) (prev : List (List ℝ)) : Option (List ℝ) :=
  let off := cholOff Arow prev
  let d := Arow.getD prev.length 0 - sumSq off
  if 0 < d then some (off ++ [Real.sqrt d]) else none

/-- Lower-triangular Cholesky factor (`scipy.linalg.cholesky(A, lower=1)`),
reading only the lower triangle of `A`; rows are stored up to the diagonal
(row `i` has length `i+1`).  `none` models the `LinAlgError` raised when
`A` is not positive definite. -/
noncomputable def cholL (A : List (List ℝ)) : Option (List (List ℝ)) :=
  A.foldlM (fun prev row => (cholStep row prev).map fun nr => prev ++ [nr]) []

/-- Entry `(a, b)` of the upper Cholesky factor of `M`
(`scipy.linalg.cholesky(M)` with `lower=False`), read off from the lower
factor `WL` of `Mᵀ`: upper factor `w = Lᵀ`, so `w a b = WL[b][a]` (zero
above row length, matching the upper-triangular zero pattern). -/
noncomputable def upEnt (WL : List (List ℝ)) (a b : ℕ) : ℝ := (WL.getD b []).getD a 0

/-- Forward substitution: `scipy.linalg.solve(T, x)` for the lower-triangular
`T` produced by `cholL` (ragged rows, diagonal last in each row). -/
noncomputable def fwdSolve (T : List (List ℝ)) (x : List ℝ) : List ℝ :=
  T.foldl (fun z row =>
    z ++ [(x.getD z.length 0 - dot (row.take z.length) z) / row.getD z.length 0]) []

/-- Maximum of a list of reals (numpy `.max()` on a nonempty array). -/
noncomputable def maxList : List ℝ → ℝ
  | [] => 0
  | x :: xs => xs.foldl max x

/-! ### The weighted least-squares solver (source lines 70-88) -/

/-- Python exceptions that can escape the per-pixel computation.  Any of
them propagates out of `linear_rate` (the source has no try/except). -/
inductive PErr where
  /-- line 71: `cholesky(V, 1)` raises `LinAlgError`, `V` not positive definite. -/
  | notPosDefV : PErr
  /-- line 75: `solve(T, ifgv.transpose())` raises `ValueError` on NaN input
  (`check_finite=True`). -/
  | nanObs : PErr
  /-- line 83: `solve(R, z)` raises `LinAlgError`, singular `R` (zero design). -/
  | singularR : PErr
  /-- line 86: `inv(V)` raises `LinAlgError`, singular `V`. -/
  | singularV : PErr
  /-- line 88: `inv(err2)` raises `LinAlgError`, `err2 = 0`. -/
  | singularE : PErr
  /-- line 95: `cholesky(inv(V))` raises `LinAlgError`. -/
  | notPosDefW : PErr
  /-- artificial fuel exhaustion of the embedded while-loop (unreachable for
  the fuel used by the driver). -/
  | fuelout : PErr
deriving DecidableEq

/-- Lines 86-88: the model error `err = sqrt(diag(inv(err2)))` with
`err2 = B·inv(V)·Bᵀ` (a `1 × 1` matrix, so `err = sqrt(1/err2)`).  It is a
function of the design row and the covariance submatrix only; numpy `sqrt`
of a negative argument is `nan` (`none`), not an exception. -/
noncomputable def errOf (B : List ℝ) (Vs : List (List ℝ)) : FVal :=
  if 0 < dot B (matVec (invL Vs) B)
  then some (Real.sqrt (dot B (matVec (invL Vs) B))⁻¹) else none

/-- Lines 70-88: whiten by the Cholesky factor of `V`, solve the one-predictor
least-squares system via economy QR, and compute the a-priori standard error
`err = sqrt(diag(inv(B·inv(V)·Bᵀ)))`.  Arguments are the subset design row
`B`, covariance submatrix `Vs` and observation vector `ifgv` (may hold NaN).
Returns the rate `v` and the error `err`. -/
noncomputable def solveWLS (B : List ℝ) (Vs : List (List ℝ)) (ifgv : List FVal) :
    Except PErr (ℝ × FVal) :=
  match cholL Vs with
  | none => .error .notPosDefV
  | some T =>
    if ifgv.any (·.isNone) then .error .nanObs
    else
      let ys := ifgv.map fun x => x.getD 0
      let A := fwdSolve T B
      let b := fwdSolve T ys
      if sumSq A = 0 then .error .singularR
      else
        let v := dot A b / sumSq A
        if detL Vs = 0 then .error .singularV
        else
          let e2 := dot B (matVec (invL Vs) B)
          if e2 = 0 then .error .singularE
          else .ok (v, errOf B Vs)

/-! ### The Danish-method rejection step (source lines 91-104) -/

/-- Residuals `r = B*v - ifgv` (elementwise, line 92). -/
noncomputable def resid (B ys : List ℝ) (v : ℝ) : List ℝ :=
  (B.zip ys).map fun p => p.1 * v - p.2

/-- Diagonal of `wr = abs(w * r.transpose())` (lines 96-99): numpy `*` is the
ELEMENTWISE product with broadcasting, `wr[a][b] = |w[a][b] * r[a]|`, so the
diagonal is `|w[a][a] * r[a]|`.  `WL` is the lower factor of the transposed
argument, `w a b = upEnt WL a b`. -/
noncomputable def codeDiag (WL : List (List ℝ)) (r : List ℝ) (k : ℕ) : List ℝ :=
  (List.range k).map fun a => |upEnt WL a a * r.getD a 0|

/-- Line 99: `maxr = diag(wr).max()`. -/
noncomputable def codeMaxr (WL : List (List ℝ)) (r : List ℝ) (k : ℕ) : ℝ :=
  maxList (codeDiag WL r k)

/-- Line 100: `maxi = nonzero(wr == maxr)[0][0]`, the first ROW index of the
`k × k` matrix `wr` containing an entry equal to `maxr` (row-major scan). -/
noncomputable def codeMaxi (WL : List (List ℝ)) (r : List ℝ) (k : ℕ) : ℕ :=
  (List.range k).findIdx fun a =>
    decide (∃ b ∈ List.range k, |upEnt WL a b * r.getD a 0| = codeMaxr WL r k)

/-- Outcome of one iteration of the while loop. -/
inductive Step where
  /-- line 104: discard the observation at position `m` of the subset. -/
  | reject (m : ℕ) : Step
  /-- lines 107-109: accept and record `(v, err)`. -/
  | accept (v : ℝ) (e : FVal) : Step

/-- One body execution of the while loop (lines 57-110) for subset `ind`:
the solver, then residuals, `w = cholesky(inv(V))` (UPPER factor: `lower`
omitted at line 95), the elementwise `wr`, and the threshold test
`maxr > nsig`. -/
noncomputable def loopBody (nsig : ℝ) (y : List FVal) (B : List ℝ)
    (Vs : List (List ℝ)) : Except PErr Step :=
  match solveWLS B Vs y with
  | .error e => .error e
  | .ok (v, errv) =>
    let ys := y.map fun x => x.getD 0
    let r := resid B ys v
    match cholL (transposeL (invL Vs)) with
    | none => .error .notPosDefW
    | some WL =>
      let k := Vs.length
      if nsig < codeMaxr WL r k then .ok (.reject (codeMaxi WL r k))
      else .ok (.accept v errv)

/-! ### The grid driver (source lines 14-52 and 105-117) -/

/-- Inputs of `linear_rate` (lines 14-31): phase observations per
interferogram and pixel (`obs`, may hold NaN), time spans (`span`),
temporal variance-covariance matrix (`vcm`), optional MST selection mask
(`mst`), and the three scalar thresholds. -/
structure Config (nifgs rows cols : ℕ) where
  obs : Fin nifgs → Fin rows → Fin cols → FVal
  span : Fin nifgs → ℝ
  vcm : Fin nifgs → Fin nifgs → ℝ
  mst : Option (Fin nifgs → Fin rows → Fin cols → ℝ)
  pthr : ℕ
  nsig : ℝ
  maxsig : ℝ

variable {nifgs rows cols : ℕ}

/-- Lines 33-37: if an `mst` is supplied, zero it wherever the observation
is NaN (`mst[isnan(obs)] = 0`, an IN-PLACE update of the caller's array);
otherwise use a dummy all-ones mask (NOT zeroed at NaN observations). -/
noncomputable def mstU (c : Config nifgs rows cols) : Fin nifgs → Fin rows → Fin cols → ℝ :=
  match c.mst with
  | some m => fun a i j => if (c.obs a i j).isNone then 0 else m a i j
  | none => fun _ _ _ => 1

/-- Line 52: `ind = nonzero(mst[:, i, j] == 1)[0]`, ascending indices. -/
noncomputable def indAt (c : Config nifgs rows cols) (i : Fin rows) (j : Fin cols) :
    List (Fin nifgs) :=
  (List.finRange nifgs).filter fun a => decide (mstU c a i j = 1)

/-- Subset of the full VCM for the selected observations (line 68). -/
noncomputable def subV (c : Config nifgs rows cols) (ind : List (Fin nifgs)) :
    List (List ℝ) :=
  ind.map fun a => ind.map fun b => c.vcm a b

/-- One loop-body execution at pixel `(i, j)` for the subset `ind`
(lines 61-68 build `ifgv`, `B`, `V` from the subset). -/
noncomputable def loopBodyAt (c : Config nifgs rows cols) (i : Fin rows) (j : Fin cols)
    (ind : List (Fin nifgs)) : Except PErr Step :=
  loopBody c.nsig (ind.map fun a => c.obs a i j) (ind.map c.span) (subV c ind)

/-- The while loop of lines 57-110: iterate while `len(ind) >= pthr`;
a rejection deletes position `maxi` from `ind` (line 104) and re-enters;
acceptance records `(v, err, len(ind))` (lines 107-109, the sample count is
`ifgv[0].shape[0] = len(ind)`); dropping below `pthr` leaves the pixel
unset (`none`).  Structured by fuel; the driver passes `nifgs + 1`, which
is never exhausted. -/
noncomputable def pixelLoop (c : Config nifgs rows cols) (i : Fin rows) (j : Fin cols) :
    ℕ → List (Fin nifgs) → Except PErr (Option (ℝ × FVal × ℕ))
  | 0, _ => .error .fuelout
  | fuel + 1, ind =>
    if ind.length < c.pthr then .ok none
    else
      match loopBodyAt c i j ind with
      | .error e => .error e
      | .ok (.accept v errv) => .ok (some (v, errv, ind.length))
      | .ok (.reject m) => pixelLoop c i j fuel (ind.eraseIdx m)

/-- Number of body executions of the while loop (same recursion as
`pixelLoop`). -/
noncomputable def pixelIters (c : Config nifgs rows cols) (i : Fin rows) (j : Fin cols) :
    ℕ → List (Fin nifgs) → ℕ
  | 0, _ => 0
  | fuel + 1, ind =>
    if ind.length < c.pthr then 0
    else
      match loopBodyAt c i j ind with
      | .ok (.reject m) => pixelIters c i j fuel (ind.eraseIdx m) + 1
      | _ => 1

/-- Whole computation of one pixel (lines 52-110). -/
noncomputable def pixelAt (c : Config nifgs rows cols) (i : Fin rows) (j : Fin cols) :
    Except PErr (Option (ℝ × FVal × ℕ)) :=
  pixelLoop c i j (nifgs + 1) (indAt c i j)

/-- Triple of output grids `(rate, error, samples)` (lines 40-42). -/
def Grids (rows cols : ℕ) :=
  (Fin rows → Fin cols → FVal) × (Fin rows → Fin cols → FVal) × (Fin rows → Fin cols → FVal)

/-- Pointwise single-cell update of a grid. -/
def setPix (g : Fin rows → Fin cols → FVal) (i : Fin rows) (j : Fin cols) (v : FVal) :
    Fin rows → Fin cols → FVal :=
  fun i2 j2 => if i2 = i ∧ j2 = j then v else g i2 j2

/-- All pixel coordinates in row-major order (the nested loops of
lines 45-50). -/
def allPix (rows cols : ℕ) : List (Fin rows × Fin cols) :=
  (List.finRange rows).flatMap fun i => (List.finRange cols).map fun j => (i, j)

/-- NaN-aware strict comparison `x > t` of a grid cell against a threshold:
numpy comparisons with `nan` are `False`. -/
noncomputable def fgtB (x : FVal) (t : ℝ) : Bool :=
  match x with
  | some v => decide (t < v)
  | none => false

/-- Lines 112-115, executed SEQUENTIALLY: `rate[error > maxsig] = nan`,
then `error[error > maxsig] = nan`, then `samples[error > maxsig] = nan`.
The third mask is recomputed from the ALREADY OVERWRITTEN `error` grid, so
it is all-`False` at exactly the pixels the first two lines cleared. -/
noncomputable def postFilter (maxsig : ℝ) (g : Grids rows cols) : Grids rows cols :=
  let rate2 : Fin rows → Fin cols → FVal :=
    fun i j => if fgtB (g.2.1 i j) maxsig then none else g.1 i j
  let error2 : Fin rows → Fin cols → FVal :=
    fun i j => if fgtB (g.2.1 i j) maxsig then none else g.2.1 i j
  let samples2 : Fin rows → Fin cols → FVal :=
    fun i j => if fgtB (error2 i j) maxsig then none else g.2.2 i j
  (rate2, error2, samples2)

/-- Processing of one pixel inside the grid fold: an exception propagates,
a non-converged pixel leaves the grids untouched, a converged one writes
`rate`, `error` and the sample count `len(ind)` (lines 105-110). -/
noncomputable def gridStep (c : Config nifgs rows cols) (g : Grids rows cols)
    (p : Fin rows × Fin cols) : Except PErr (Grids rows cols) :=
  match pixelAt c p.1 p.2 with
  | .error e => .error e
  | .ok none => .ok g
  | .ok (some (v, errv, k)) =>
    .ok (setPix g.1 p.1 p.2 (some v), setPix g.2.1 p.1 p.2 errv,
         setPix g.2.2 p.1 p.2 (some (k : ℝ)))

/-- Grids before the post-filter: fold the per-pixel computation over all
pixels in row-major order, starting from all-NaN grids; the first pixel
whose computation raises aborts the whole call. -/
noncomputable def rawGrids (c : Config nifgs rows cols) : Except PErr (Grids rows cols) :=
  (allPix rows cols).foldlM (gridStep c)
    (fun _ _ => none, fun _ _ => none, fun _ _ => none)

/-- The function `linear_rate` (lines 14-117): per-pixel robust rates, then
the `maxsig` post-filter.  A python exception anywhere yields `.error`. -/
noncomputable def linear_rate (c : Config nifgs rows cols) : Except PErr (Grids rows cols) :=
  (rawGrids c).map (postFilter c.maxsig)

/-- The observable effect of `linear_rate` on the caller's `mst` array:
line 35 mutates it in place when it is supplied (NaN observations zeroed);
when omitted, the dummy mask is a fresh allocation and no input changes. -/
noncomputable def mstAfter (c : Config nifgs rows cols) :
    Option (Fin nifgs → Fin rows → Fin cols → ℝ) :=
  c.mst.map fun m => fun a i j => if (c.obs a i j).isNone then 0 else m a i j

/-- The call together with its side effect on the caller's arrays: the
returned grids, and the final contents of the (possibly mutated) `mst`
argument.  `obs` and `span` are fresh copies (line 30-31), `vcm` is only
read, and the `ifgs` objects are only read, so `mst` is the only input
whose final value can differ from its initial one. -/
noncomputable def linear_rate_full (c : Config nifgs rows cols) :
    Except PErr (Grids rows cols) × Option (Fin nifgs → Fin rows → Fin cols → ℝ) :=
  (linear_rate c, mstAfter c)

/-! ### Definitions taken from the spec text, for comparison -/

/-- Modelled from the spec: the whitened-residual magnitude
`wr = |W · rᵗ|` as a MATRIX product, `wr[a] = |Σ_b w[a][b]·r[b]|`
(spec section 4.3 step 3). -/
noncomputable def specWr (WL : List (List ℝ)) (r : List ℝ) (k : ℕ) : List ℝ :=
  (List.range k).map fun a =>
    |((List.range k).map fun b => upEnt WL a b * r.getD b 0).sum|

/-- Modelled from the spec: `maxr` = maximum of the matrix-product `wr`
(spec section 4.3 step 4). -/
noncomputable def specMaxr (WL : List (List ℝ)) (r : List ℝ) (k : ℕ) : ℝ :=
  maxList (specWr WL r k)

/-- Modelled from the spec: the simple two-point slope of spec section 8
("Single-predictor exactness"). -/
noncomputable def twoPointSlope (t1 t2 y1 y2 : ℝ) : ℝ := (y2 - y1) / (t2 - t1)

/-! ### Concrete test configurations -/

/-- Single pixel, single interferogram, identity covariance; the converged
error is `1`, which exceeds `maxsig = 1/2`. -/
noncomputable def cfgA : Config 1 1 1 :=
  { obs := fun _ _ _ => some 0, span := fun _ => 1, vcm := fun _ _ => 1,
    mst := none, pthr := 1, nsig := 1, maxsig := 1/2 }

/-- Single pixel, single interferogram, covariance `4`; the converged error
is `2`, exceeding `maxsig = 1`. -/
noncomputable def cfgB : Config 1 1 1 :=
  { obs := fun _ _ _ => some 3, span := fun _ => 1, vcm := fun _ _ => 4,
    mst := none, pthr := 1, nsig := 1, maxsig := 1 }

/-- Two interferograms, one row, two pixels.  The full `vcm` is
`[[1,2],[2,1]]`, not positive definite; the mask selects both
interferograms at pixel `(0,0)` but only the first at pixel `(0,1)`, so the
first pixel hits a Cholesky failure while the second would succeed. -/
noncomputable def cfgC : Config 2 1 2 :=
  { obs := fun _ _ _ => some 2, span := fun _ => 1,
    vcm := fun a b => if a = b then 1 else 2,
    mst := some fun a _ j => if j = 0 then 1 else if a = 0 then 1 else 0,
    pthr := 1, nsig := 1, maxsig := 100 }

/-- Single pixel, single interferogram; converges to rate `2` with error `1`,
below `maxsig = 10`. -/
noncomputable def cfgD : Config 1 1 1 :=
  { obs := fun _ _ _ => some 2, span := fun _ => 1, vcm := fun _ _ => 1,
    mst := none, pthr := 1, nsig := 1, maxsig := 10 }

/-- Single pixel, single interferogram; converges to rate `5` with error `1`,
below `maxsig = 7`. -/
noncomputable def cfgE : Config 1 1 1 :=
  { obs := fun _ _ _ => some 5, span := fun _ => 1, vcm := fun _ _ => 1,
    mst := none, pthr := 1, nsig := 2, maxsig := 7 }

/-- Two interferograms, one pixel: spans `(1, 11)`, observations `(0, 10)`,
`vcm = [[1,3],[3,25]]`, `pthr = 2`, `nsig = 6/5`.  The first loop iteration
rejects position `0`. -/
noncomputable def cfgF : Config 2 1 1 :=
  { obs := fun a _ _ => if a = 0 then some 0 else some 10,
    span := fun a => if a = 0 then 1 else 11,
    vcm := fun a b =>
      if a = 0 then (if b = 0 then 1 else 3) else (if b = 0 then 3 else 25),
    mst := none, pthr := 2, nsig := 6/5, maxsig := 100 }

/-- Single pixel, single interferogram whose observation is NaN, with a
supplied all-ones mask: line 35 zeroes the caller's mask in place. -/
noncomputable def cfgG : Config 1 1 1 :=
  { obs := fun _ _ _ => none, span := fun _ => 1, vcm := fun _ _ => 1,
    mst := some fun _ _ _ => 1, pthr := 5, nsig := 1, maxsig := 1 }

/-- Single pixel, single interferogram whose observation is NaN, with the
mask argument omitted: the dummy all-ones mask still selects it. -/
noncomputable def cfgH : Config 1 1 1 :=
  { obs := fun _ _ _ => none, span := fun _ => 1, vcm := fun _ _ => 1,
    mst := none, pthr := 5, nsig := 1, maxsig := 1 }

/-- Invariant: every defined sample-count cell holds a count `≥ pthr`. -/
def sampInv (c : Config nifgs rows cols) (g : Grids rows cols) : Prop :=
  ∀ (i : Fin rows) (j : Fin cols) (s : ℝ), g.2.2 i j = some s → (c.pthr : ℝ) ≤ s

/-! ### Small-instance evaluation lemmas -/

lemma rsqrt_eq {a b : ℝ} (hb : 0 ≤ b) (h : a = b * b) : Real.sqrt a = b := by
  rw [h, Real.sqrt_mul_self hb]

lemma range_one : List.range 1 = [0] := rfl

lemma range_two : List.range 2 = [0, 1] := rfl

lemma detL_nil : detL [] = 1 := by rw [detL]

lemma detL_cons (r : List ℝ) (rest : List (List ℝ)) :
    detL (r :: rest) =
      ((List.range r.length).map fun c =>
        (-1 : ℝ) ^ c * r.getD c 0 * detL (rest.map fun row => row.eraseIdx c)).sum := by
  rw [detL]

lemma detL_one (a : ℝ) : detL [[a]] = a := by
  rw [detL_cons]; simp [range_one, detL_nil]

lemma detL_two (a b c d : ℝ) : detL [[a, b], [c, d]] = a * d - b * c := by
  rw [detL_cons]; simp [range_two, detL_one]; ring

lemma adjL_two (a b c d : ℝ) : adjL [[a, b], [c, d]] = [[d, -b], [-c, a]] := by
  simp [adjL, range_two, minorL, detL_one]

lemma invL_one (a : ℝ) : invL [[a]] = [[a⁻¹]] := by
  simp [invL, adjL, range_one, minorL, detL_nil, detL_one]

lemma invL_two (a b c d : ℝ) :
    invL [[a, b], [c, d]] =
      [[d / (a * d - b * c), -b / (a * d - b * c)],
       [-c / (a * d - b * c), a / (a * d - b * c)]] := by
  rw [invL, adjL_two, detL_two]
  simp

lemma cholL_one {a : ℝ} (h : 0 < a) : cholL [[a]] = some [[Real.sqrt a]] := by
  simp [cholL, cholStep, cholOff, sumSq, dot, List.foldlM, h]

lemma cholL_id2 : cholL [[(1:ℝ), 0], [0, 1]] = some [[1], [0, 1]] := by
  simp [cholL, cholStep, cholOff, sumSq, dot, List.foldlM, Real.sqrt_one]

lemma cholL_E1 : cholL [[(1:ℝ), 3], [3, 25]] = some [[1], [3, 4]] := by
  simp [cholL, cholStep, cholOff, sumSq, dot, List.foldlM, Real.sqrt_one]
  exact ⟨by norm_num, rsqrt_eq (by norm_num) (by norm_num)⟩

lemma cholL_C : cholL [[(1:ℝ), 2], [2, 1]] = none := by
  simp [cholL, cholStep, cholOff, sumSq, dot, List.foldlM, Real.sqrt_one]
  norm_num

lemma inv_E1 : invL [[(1:ℝ), 3], [3, 25]] = [[25/16, -3/16], [-3/16, 1/16]] := by
  rw [invL_two]; norm_num

lemma transpose_E1 : transposeL [[(25:ℝ)/16, -3/16], [-3/16, 1/16]] =
    [[25/16, -3/16], [-3/16, 1/16]] := by
  simp [transposeL, range_two]

lemma cholW_E1 : cholL [[(25:ℝ)/16, -3/16], [-3/16, 1/16]] =
    some [[5/4], [-3/20, 1/5]] := by
  simp [cholL, cholStep, cholOff, sumSq, dot, List.foldlM]
  have h5 : Real.sqrt 25 = 5 := rsqrt_eq (by norm_num) (by norm_num)
  have h4 : Real.sqrt 16 = 4 := rsqrt_eq (by norm_num) (by norm_num)
  rw [h5, h4]
  refine ⟨by norm_num, by norm_num, by norm_num, rsqrt_eq (by norm_num) (by norm_num)⟩

/-! ### Structural lemmas -/

lemma foldl_max_mem (xs : List ℝ) (a : ℝ) : xs.foldl max a = a ∨ xs.foldl max a ∈ xs := by
  induction xs generalizing a with
  | nil => left; rfl
  | cons x xs ih =>
    rcases ih (max a x) with h | h
    · rcases max_choice a x with hm | hm
      · left; rw [List.foldl_cons, h, hm]
      · right; rw [List.foldl_cons, h, hm]; exact List.mem_cons_self x xs
    · right; exact List.mem_cons_of_mem x h

lemma init_le_foldl_max (xs : List ℝ) (a : ℝ) : a ≤ xs.foldl max a := by
  induction xs generalizing a with
  | nil => exact le_refl a
  | cons x xs ih => exact le_trans (le_max_left a x) (ih (max a x))

lemma mem_le_foldl_max {x : ℝ} {xs : List ℝ} (a : ℝ) (hx : x ∈ xs) :
    x ≤ xs.foldl max a := by
  induction xs generalizing a with
  | nil => cases hx
  | cons z zs ih =>
    rcases List.mem_cons.mp hx with rfl | h
    · exact le_trans (le_max_right a x) (init_le_foldl_max zs (max a x))
    · exact ih (max a z) h

lemma maxList_mem {xs : List ℝ} (h : xs ≠ []) : maxList xs ∈ xs := by
  cases xs with
  | nil => exact absurd rfl h
  | cons x l =>
    rcases foldl_max_mem l x with h2 | h2
    · rw [maxList, h2]; exact List.mem_cons_self x l
    · rw [maxList]; exact List.mem_cons_of_mem x h2

lemma le_maxList {x : ℝ} {xs : List ℝ} (hx : x ∈ xs) : x ≤ maxList xs := by
  cases xs with
  | nil => cases hx
  | cons z l =>
    rcases List.mem_cons.mp hx with rfl | h
    · exact init_le_foldl_max l x
    · exact mem_le_foldl_max z h

/-- The rejected position is a valid row index of the `k × k` matrix `wr`:
`maxr` is attained on the diagonal, so the row-major scan finds a row. -/
lemma codeMaxi_lt {WL : List (List ℝ)} {r : List ℝ} {k : ℕ} (hk : 0 < k) :
    codeMaxi WL r k < k := by
  have hne : codeDiag WL r k ≠ [] := by
    simp [codeDiag, List.map_eq_nil_iff, List.range_eq_nil]
    omega
  have hmem := maxList_mem hne
  rw [codeDiag] at hmem
  rcases List.mem_map.mp hmem with ⟨a, ha, hval⟩
  have : (List.range k).findIdx
      (fun a => decide (∃ b ∈ List.range k, |upEnt WL a b * r.getD a 0| = codeMaxr WL r k))
      < (List.range k).length := by
    apply List.findIdx_lt_length_of_exists
    exact ⟨a, ha, decide_eq_true ⟨a, ha, by rw [hval]; rfl⟩⟩
  rw [List.length_range] at this
  exact this

lemma cholL_nil : cholL [] = some [] := rfl

/-- A solver success needs a nonempty subset: with `k = 0` the design is
empty and line 83 raises (singular `R`). -/
lemma solveWLS_ok_ne_nil {B : List ℝ} {y : List FVal} {p : ℝ × FVal}
    (h : solveWLS B [] y = .ok p) : False := by
  by_cases hy : y.any (·.isNone)
  · simp [solveWLS, cholL_nil, hy] at h
  · simp [solveWLS, cholL_nil, hy, fwdSolve, sumSq, dot] at h

/-- Unfolding of the loop body once the solver and the second Cholesky
factorisation have succeeded. -/
lemma loopBody_eq {nsig : ℝ} {y : List FVal} {B : List ℝ} {Vs : List (List ℝ)}
    {v : ℝ} {errv : FVal} {WL : List (List ℝ)}
    (hs : solveWLS B Vs y = .ok (v, errv))
    (hW : cholL (transposeL (invL Vs)) = some WL) :
    loopBody nsig y B Vs =
      if nsig < codeMaxr WL (resid B (y.map fun x => x.getD 0) v) Vs.length
      then .ok (.reject (codeMaxi WL (resid B (y.map fun x => x.getD 0) v) Vs.length))
      else .ok (.accept v errv) := by
  unfold loopBody
  rw [hs, hW]

/-- A rejection always deletes a valid position of the current subset. -/
lemma loopBody_reject_lt {nsig : ℝ} {y : List FVal} {B : List ℝ} {Vs : List (List ℝ)}
    {m : ℕ} (h : loopBody nsig y B Vs = .ok (.reject m)) : m < Vs.length := by
  cases hs : solveWLS B Vs y with
  | error e =>
    have he : loopBody nsig y B Vs = .error e := by unfold loopBody; rw [hs]
    rw [he] at h; cases h
  | ok p =>
    obtain ⟨v, errv⟩ := p
    cases hW : cholL (transposeL (invL Vs)) with
    | none =>
      have he : loopBody nsig y B Vs = .error .notPosDefW := by unfold loopBody; rw [hs, hW]
      rw [he] at h; cases h
    | some WL =>
      have hk : 0 < Vs.length := by
        cases Vs with
        | nil => exact absurd hs (by intro hc; exact solveWLS_ok_ne_nil hc)
        | cons a l => simp
      have h2 := (loopBody_eq hs hW).symm.trans h
      by_cases hc : nsig < codeMaxr WL (resid B (y.map fun x => x.getD 0) v) Vs.length
      · rw [if_pos hc] at h2
        cases h2
        exact codeMaxi_lt hk
      · rw [if_neg hc] at h2
        cases h2

lemma loopBodyAt_reject_lt {c : Config nifgs rows cols} {i : Fin rows} {j : Fin cols}
    {ind : List (Fin nifgs)} {m : ℕ}
    (h : loopBodyAt c i j ind = .ok (.reject m)) : m < ind.length := by
  have := loopBody_reject_lt h
  rwa [subV, List.length_map] at this

lemma pixelLoop_succ (c : Config nifgs rows cols) (i : Fin rows) (j : Fin cols)
    (fuel : ℕ) (ind : List (Fin nifgs)) :
    pixelLoop c i j (fuel + 1) ind =
      if ind.length < c.pthr then .ok none
      else
        match loopBodyAt c i j ind with
        | .error e => .error e
        | .ok (.accept v errv) => .ok (some (v, errv, ind.length))
        | .ok (.reject m) => pixelLoop c i j fuel (ind.eraseIdx m) := rfl

lemma pixelIters_succ (c : Config nifgs rows cols) (i : Fin rows) (j : Fin cols)
    (fuel : ℕ) (ind : List (Fin nifgs)) :
    pixelIters c i j (fuel + 1) ind =
      if ind.length < c.pthr then 0
      else
        match loopBodyAt c i j ind with
        | .ok (.reject m) => pixelIters c i j fuel (ind.eraseIdx m) + 1
        | _ => 1 := rfl

/-- A recorded sample count always satisfies the loop guard: results are
recorded only while `len(ind) ≥ pthr`, and the recorded count is `len(ind)`. -/
lemma pixelLoop_ok_pthr {c : Config nifgs rows cols} {i : Fin rows} {j : Fin cols}
    {fuel : ℕ} {ind : List (Fin nifgs)} {v : ℝ} {errv : FVal} {k : ℕ}
    (h : pixelLoop c i j fuel ind = .ok (some (v, errv, k))) : c.pthr ≤ k := by
  induction fuel generalizing ind with
  | zero => simp [pixelLoop] at h
  | succ fuel ih =>
    rw [pixelLoop_succ] at h
    by_cases hg : ind.length < c.pthr
    · rw [if_pos hg] at h; simp at h
    · rw [if_neg hg] at h
      cases hb : loopBodyAt c i j ind with
      | error e => rw [hb] at h; cases h
      | ok s =>
        cases s with
        | accept v2 errv2 =>
          rw [hb] at h
          have h2 : (Except.ok (some (v2, errv2, ind.length)) :
              Except PErr (Option (ℝ × FVal × ℕ))) = .ok (some (v, errv, k)) := h
          cases h2
          exact le_of_not_lt hg
        | reject m =>
          rw [hb] at h
          exact ih h

/-- The iteration bound of the while loop: each rejection deletes one
element, so at most `len(ind) + 1 - pthr` body executions happen. -/
lemma pixelIters_le {c : Config nifgs rows cols} {i : Fin rows} {j : Fin cols} :
    ∀ (fuel : ℕ) (ind : List (Fin nifgs)), ind.length < fuel →
      pixelIters c i j fuel ind ≤ ind.length + 1 - c.pthr := by
  intro fuel
  induction fuel with
  | zero => intro ind h; omega
  | succ fuel ih =>
    intro ind hlen
    rw [pixelIters_succ]
    by_cases hg : ind.length < c.pthr
    · rw [if_pos hg]; omega
    · rw [if_neg hg]
      cases hb : loopBodyAt c i j ind with
      | error e =>
        show 1 ≤ ind.length + 1 - c.pthr
        omega
      | ok s =>
        cases s with
        | accept v errv =>
          show 1 ≤ ind.length + 1 - c.pthr
          omega
        | reject m =>
          show pixelIters c i j fuel (ind.eraseIdx m) + 1 ≤ ind.length + 1 - c.pthr
          have hm : m < ind.length := loopBodyAt_reject_lt hb
          have herase : (ind.eraseIdx m).length = ind.length - 1 :=
            List.length_eraseIdx_of_lt hm
          have hbound := ih (ind.eraseIdx m) (by omega)
          omega

lemma mem_allPix (i : Fin rows) (j : Fin cols) : (i, j) ∈ allPix rows cols := by
  simp [allPix, List.mem_flatMap, List.mem_map]

/-- If the whole fold succeeded, every pixel's computation succeeded. -/
lemma foldlM_gridStep_all_ok {c : Config nifgs rows cols} :
    ∀ (l : List (Fin rows × Fin cols)) (g0 out : Grids rows cols),
      l.foldlM (gridStep c) g0 = .ok out →
      ∀ p ∈ l, ∃ r, pixelAt c p.1 p.2 = .ok r := by
  intro l
  induction l with
  | nil => intro g0 out h p hp; cases hp
  | cons q l ih =>
    intro g0 out h p hp
    rw [List.foldlM_cons] at h
    cases hq : gridStep c g0 q with
    | error e => rw [hq] at h; cases h
    | ok g1 =>
      rw [hq] at h
      have h2 : l.foldlM (gridStep c) g1 = .ok out := h
      rcases List.mem_cons.mp hp with rfl | hpl
      · unfold gridStep at hq
        cases hr : pixelAt c p.1 p.2 with
        | error e => rw [hr] at hq; cases hq
        | ok r => exact ⟨r, rfl⟩
      · exact ih g1 out h2 p hpl

lemma foldlM_gridStep_sampInv {c : Config nifgs rows cols} :
    ∀ (l : List (Fin rows × Fin cols)) (g0 out : Grids rows cols),
      l.foldlM (gridStep c) g0 = .ok out → sampInv c g0 → sampInv c out := by
  intro l
  induction l with
  | nil => intro g0 out h h0; cases h; exact h0
  | cons q l ih =>
    intro g0 out h h0
    rw [List.foldlM_cons] at h
    cases hq : gridStep c g0 q with
    | error e => rw [hq] at h; cases h
    | ok g1 =>
      rw [hq] at h
      have h2 : l.foldlM (gridStep c) g1 = .ok out := h
      apply ih g1 out h2
      unfold gridStep at hq
      cases hr : pixelAt c q.1 q.2 with
      | error e => rw [hr] at hq; cases hq
      | ok r =>
        rw [hr] at hq
        cases r with
        | none =>
          have hg : (Except.ok g0 : Except PErr (Grids rows cols)) = .ok g1 := hq
          cases hg; exact h0
        | some res =>
          obtain ⟨v, errv, k⟩ := res
          have hg : (Except.ok (setPix g0.1 q.1 q.2 (some v), setPix g0.2.1 q.1 q.2 errv,
              setPix g0.2.2 q.1 q.2 (some (k : ℝ))) : Except PErr (Grids rows cols)) = .ok g1 := hq
          cases hg
          intro i j s hs
          simp only [setPix] at hs
          by_cases hij : i = q.1 ∧ j = q.2
          · rw [if_pos hij] at hs
            cases hs
            exact_mod_cast pixelLoop_ok_pthr hr
          · rw [if_neg hij] at hs
            exact h0 i j s hs

/-! ### Solver evaluations and inversion -/

lemma solveWLS_some {B : List ℝ} {Vs T : List (List ℝ)} {y : List FVal}
    (hc : cholL Vs = some T) :
    solveWLS B Vs y =
      if y.any (·.isNone) then .error .nanObs
      else if sumSq (fwdSolve T B) = 0 then .error .singularR
      else if detL Vs = 0 then .error .singularV
      else if dot B (matVec (invL Vs) B) = 0 then .error .singularE
      else .ok (dot (fwdSolve T B) (fwdSolve T (y.map fun x => x.getD 0)) /
                  sumSq (fwdSolve T B), errOf B Vs) := by
  unfold solveWLS
  rw [hc]

/-- The error component of a successful solver run is the a-priori formula,
a function of the design row and covariance submatrix only. -/
lemma solveWLS_ok_err {B : List ℝ} {Vs : List (List ℝ)} {y : List FVal}
    {v : ℝ} {e : FVal} (h : solveWLS B Vs y = .ok (v, e)) : e = errOf B Vs := by
  cases hc : cholL Vs with
  | none =>
    have he : solveWLS B Vs y = .error .notPosDefV := by unfold solveWLS; rw [hc]
    rw [he] at h; cases h
  | some T =>
    rw [solveWLS_some hc] at h
    split_ifs at h with h1 h2 h3 h4
    all_goals cases h
    rfl

lemma solve_A : solveWLS [(1:ℝ)] [[1]] [some 0] = .ok (0, some 1) := by
  unfold solveWLS
  rw [cholL_one (by norm_num), Real.sqrt_one]
  norm_num [fwdSolve, sumSq, dot, matVec, detL_one, invL_one, errOf]

lemma solve_A7 : solveWLS [(1:ℝ)] [[1]] [some 7] = .ok (7, some 1) := by
  unfold solveWLS
  rw [cholL_one (by norm_num), Real.sqrt_one]
  norm_num [fwdSolve, sumSq, dot, matVec, detL_one, invL_one, errOf]

lemma solve_D : solveWLS [(1:ℝ)] [[1]] [some 2] = .ok (2, some 1) := by
  unfold solveWLS
  rw [cholL_one (by norm_num), Real.sqrt_one]
  norm_num [fwdSolve, sumSq, dot, matVec, detL_one, invL_one, errOf]

lemma solve_E : solveWLS [(1:ℝ)] [[1]] [some 5] = .ok (5, some 1) := by
  unfold solveWLS
  rw [cholL_one (by norm_num), Real.sqrt_one]
  norm_num [fwdSolve, sumSq, dot, matVec, detL_one, invL_one, errOf]

lemma solve_B : solveWLS [(1:ℝ)] [[4]] [some 3] = .ok (3, some 2) := by
  unfold solveWLS
  have h2 : Real.sqrt 4 = 2 := rsqrt_eq (by norm_num) (by norm_num)
  rw [cholL_one (by norm_num), h2]
  have h1 : Real.sqrt 4⁻¹⁻¹ = 2 := by norm_num [h2]
  norm_num [fwdSolve, sumSq, dot, matVec, detL_one, invL_one, errOf, h1, h2]

lemma solve_E1 : solveWLS [(1:ℝ), 11] [[1, 3], [3, 25]] [some 0, some 10] =
    .ok (1, errOf [(1:ℝ), 11] [[1, 3], [3, 25]]) := by
  unfold solveWLS
  rw [cholL_E1]
  norm_num [fwdSolve, sumSq, dot, matVec, detL_two, inv_E1]

/-! ### Loop-body evaluations -/

lemma cholW_one : cholL (transposeL (invL [[(1:ℝ)]])) = some [[1]] := by
  rw [invL_one]
  norm_num [transposeL, range_one]
  rw [cholL_one (by norm_num), Real.sqrt_one]

lemma body_one {v : ℝ} {errv : FVal} {yv : ℝ} {nsig : ℝ}
    (hs : solveWLS [(1:ℝ)] [[1]] [some yv] = .ok (v, errv))
    (hr : v - yv = 0) (hn : 0 ≤ nsig) :
    loopBody nsig [some yv] [(1:ℝ)] [[1]] = .ok (.accept v errv) := by
  rw [loopBody_eq hs cholW_one]
  have hm : codeMaxr [[(1:ℝ)]]
      (resid [(1:ℝ)] (([some yv] : List FVal).map fun x => x.getD 0) v)
      ([[(1:ℝ)]] : List (List ℝ)).length = 0 := by
    simp [codeMaxr, codeDiag, range_one, upEnt, maxList, resid, hr]
  rw [hm, if_neg (not_lt.mpr hn)]

lemma cholW_B : cholL (transposeL (invL [[(4:ℝ)]])) = some [[1/2]] := by
  rw [invL_one]
  norm_num [transposeL, range_one]
  rw [cholL_one (by norm_num)]
  rw [rsqrt_eq (show (0:ℝ) ≤ 1/2 by norm_num) (show ((1:ℝ)/4) = (1/2) * (1/2) by norm_num)]

lemma body_B : loopBody (1:ℝ) [some 3] [(1:ℝ)] [[4]] = .ok (.accept 3 (some 2)) := by
  rw [loopBody_eq solve_B cholW_B]
  have hm : codeMaxr [[(1:ℝ)/2]]
      (resid [(1:ℝ)] (([some 3] : List FVal).map fun x => x.getD 0) 3)
      ([[(4:ℝ)]] : List (List ℝ)).length = 0 := by
    simp [codeMaxr, codeDiag, range_one, upEnt, maxList, resid]
  rw [hm, if_neg (by norm_num)]

/-! ### Evaluation of the rejection iteration on the two-point data of
`cfgF` (spans `(1,11)`, observations `(0,10)`, `vcm = [[1,3],[3,25]]`). -/

lemma resid_E1 : resid [(1:ℝ), 11] (([some 0, some 10] : List FVal).map fun x => x.getD 0) 1 =
    [1, 1] := by
  simp [resid]
  norm_num

lemma maxr_E1 : codeMaxr [[(5:ℝ)/4], [-3/20, 1/5]] [1, 1] 2 = 5/4 := by
  simp [codeMaxr, codeDiag, range_two, upEnt, maxList, max_def]
  norm_num [abs_of_pos]

lemma maxi_E1 : codeMaxi [[(5:ℝ)/4], [-3/20, 1/5]] [1, 1] 2 = 0 := by
  unfold codeMaxi
  rw [maxr_E1]
  norm_num [range_two, upEnt, List.findIdx_cons]

lemma cholW_E1ctx : cholL (transposeL (invL [[(1:ℝ), 3], [3, 25]])) =
    some [[5/4], [-3/20, 1/5]] := by
  rw [inv_E1, transpose_E1, cholW_E1]

lemma body_E1 : loopBody (6/5 : ℝ) [some 0, some 10] [(1:ℝ), 11] [[1, 3], [3, 25]] =
    .ok (.reject 0) := by
  rw [loopBody_eq solve_E1 cholW_E1ctx]
  rw [resid_E1]
  simp only [List.length_cons, List.length_nil]
  rw [maxr_E1, maxi_E1]
  rw [if_pos (by norm_num)]

lemma specmaxr_E1 : specMaxr [[(5:ℝ)/4], [-3/20, 1/5]] [1, 1] 2 = 11/10 := by
  simp [specMaxr, specWr, range_two, upEnt, maxList, max_def]
  norm_num [abs_of_pos]

/-! ### Per-pixel and whole-grid evaluations of the test configurations -/

lemma indAt_none {c : Config nifgs rows cols} (h : c.mst = none)
    (i : Fin rows) (j : Fin cols) : indAt c i j = List.finRange nifgs := by
  unfold indAt mstU
  rw [h]
  simp

lemma finRange_one : List.finRange 1 = [0] := by decide

lemma finRange_two : List.finRange 2 = [0, 1] := by decide

lemma ind_A : indAt cfgA 0 0 = [0] := by rw [indAt_none rfl, finRange_one]

lemma bodyAt_A : loopBodyAt cfgA 0 0 [0] = .ok (.accept 0 (some 1)) := by
  unfold loopBodyAt
  exact body_one solve_A (by norm_num) (by norm_num [cfgA])

lemma pix_A : pixelAt cfgA 0 0 = .ok (some (0, some 1, 1)) := by
  unfold pixelAt
  rw [ind_A, pixelLoop_succ, if_neg (by norm_num [cfgA]), bodyAt_A]
  rfl

lemma raw_A : rawGrids cfgA = .ok
    (setPix (fun _ _ => none) 0 0 (some 0), setPix (fun _ _ => none) 0 0 (some 1),
     setPix (fun _ _ => none) 0 0 (some ((1:ℕ):ℝ))) := by
  unfold rawGrids
  rw [show allPix 1 1 = [(0, 0)] from rfl, List.foldlM_cons]
  unfold gridStep
  rw [pix_A]
  rfl

lemma ind_B : indAt cfgB 0 0 = [0] := by rw [indAt_none rfl, finRange_one]

lemma bodyAt_B : loopBodyAt cfgB 0 0 [0] = .ok (.accept 3 (some 2)) := by
  unfold loopBodyAt
  exact body_B

lemma pix_B : pixelAt cfgB 0 0 = .ok (some (3, some 2, 1)) := by
  unfold pixelAt
  rw [ind_B, pixelLoop_succ, if_neg (by norm_num [cfgB]), bodyAt_B]
  rfl

lemma raw_B : rawGrids cfgB = .ok
    (setPix (fun _ _ => none) 0 0 (some 3), setPix (fun _ _ => none) 0 0 (some 2),
     setPix (fun _ _ => none) 0 0 (some ((1:ℕ):ℝ))) := by
  unfold rawGrids
  rw [show allPix 1 1 = [(0, 0)] from rfl, List.foldlM_cons]
  unfold gridStep
  rw [pix_B]
  rfl

lemma ind_D : indAt cfgD 0 0 = [0] := by rw [indAt_none rfl, finRange_one]

lemma pix_D : pixelAt cfgD 0 0 = .ok (some (2, some 1, 1)) := by
  unfold pixelAt
  rw [ind_D, pixelLoop_succ, if_neg (by norm_num [cfgD])]
  rw [show loopBodyAt cfgD 0 0 [0] = .ok (.accept 2 (some 1)) from
    body_one solve_D (by norm_num) (by norm_num [cfgD])]
  rfl

lemma raw_D : rawGrids cfgD = .ok
    (setPix (fun _ _ => none) 0 0 (some 2), setPix (fun _ _ => none) 0 0 (some 1),
     setPix (fun _ _ => none) 0 0 (some ((1:ℕ):ℝ))) := by
  unfold rawGrids
  rw [show allPix 1 1 = [(0, 0)] from rfl, List.foldlM_cons]
  unfold gridStep
  rw [pix_D]
  rfl

lemma lin_D : linear_rate cfgD = .ok (postFilter cfgD.maxsig
    (setPix (fun _ _ => none) 0 0 (some 2), setPix (fun _ _ => none) 0 0 (some 1),
     setPix (fun _ _ => none) 0 0 (some ((1:ℕ):ℝ)))) := by
  unfold linear_rate
  rw [raw_D]
  rfl

lemma ind_E : indAt cfgE 0 0 = [0] := by rw [indAt_none rfl, finRange_one]

lemma pix_E : pixelAt cfgE 0 0 = .ok (some (5, some 1, 1)) := by
  unfold pixelAt
  rw [ind_E, pixelLoop_succ, if_neg (by norm_num [cfgE])]
  rw [show loopBodyAt cfgE 0 0 [0] = .ok (.accept 5 (some 1)) from
    body_one solve_E (by norm_num) (by norm_num [cfgE])]
  rfl

lemma raw_E : rawGrids cfgE = .ok
    (setPix (fun _ _ => none) 0 0 (some 5), setPix (fun _ _ => none) 0 0 (some 1),
     setPix (fun _ _ => none) 0 0 (some ((1:ℕ):ℝ))) := by
  unfold rawGrids
  rw [show allPix 1 1 = [(0, 0)] from rfl, List.foldlM_cons]
  unfold gridStep
  rw [pix_E]
  rfl

lemma lin_E : linear_rate cfgE = .ok (postFilter cfgE.maxsig
    (setPix (fun _ _ => none) 0 0 (some 5), setPix (fun _ _ => none) 0 0 (some 1),
     setPix (fun _ _ => none) 0 0 (some ((1:ℕ):ℝ)))) := by
  unfold linear_rate
  rw [raw_E]
  rfl

lemma sampcell_E : (postFilter cfgE.maxsig
    ((setPix (fun _ _ => none) 0 0 (some 5), setPix (fun _ _ => none) 0 0 (some 1),
      setPix (fun _ _ => none) 0 0 (some ((1:ℕ):ℝ))) : Grids 1 1)).2.2 0 0 =
    some ((1:ℕ):ℝ) := by
  unfold postFilter
  simp only [setPix]
  norm_num [fgtB, cfgE]

lemma ind_C0 : indAt cfgC 0 0 = [0, 1] := by
  unfold indAt mstU
  rw [show cfgC.mst = some fun a _ j => if j = 0 then 1 else if a = 0 then 1 else 0 from rfl]
  rw [finRange_two]
  simp [cfgC]

lemma ind_C1 : indAt cfgC 0 1 = [0] := by
  unfold indAt mstU
  rw [show cfgC.mst = some fun a _ j => if j = 0 then 1 else if a = 0 then 1 else 0 from rfl]
  rw [finRange_two]
  simp [cfgC]

lemma subV_C : subV cfgC [0, 1] = [[1, 2], [2, 1]] := by
  simp [subV, cfgC]

lemma bodyAt_C0 : loopBodyAt cfgC 0 0 [0, 1] = .error .notPosDefV := by
  unfold loopBodyAt
  rw [subV_C]
  have hs : solveWLS (([0, 1] : List (Fin 2)).map cfgC.span) [[1, 2], [2, 1]]
      (([0, 1] : List (Fin 2)).map fun a => cfgC.obs a 0 0) = .error .notPosDefV := by
    unfold solveWLS
    rw [cholL_C]
  unfold loopBody
  rw [hs]

lemma pix_C0 : pixelAt cfgC 0 0 = .error .notPosDefV := by
  unfold pixelAt
  rw [ind_C0, pixelLoop_succ, if_neg (by norm_num [cfgC]), bodyAt_C0]

lemma pix_C1 : pixelAt cfgC 0 1 = .ok (some (2, some 1, 1)) := by
  unfold pixelAt
  rw [ind_C1, pixelLoop_succ, if_neg (by norm_num [cfgC])]
  rw [show loopBodyAt cfgC 0 1 [0] = .ok (.accept 2 (some 1)) from
    body_one solve_D (by norm_num) (by norm_num [cfgC])]
  rfl

lemma lin_C : linear_rate cfgC = .error .notPosDefV := by
  unfold linear_rate rawGrids
  rw [show allPix 1 2 = [(0, 0), (0, 1)] from rfl, List.foldlM_cons]
  unfold gridStep
  rw [pix_C0]
  rfl

lemma lin_A : linear_rate cfgA = .ok (postFilter cfgA.maxsig
    (setPix (fun _ _ => none) 0 0 (some 0), setPix (fun _ _ => none) 0 0 (some 1),
     setPix (fun _ _ => none) 0 0 (some ((1:ℕ):ℝ)))) := by
  unfold linear_rate
  rw [raw_A]
  rfl

lemma lin_B : linear_rate cfgB = .ok (postFilter cfgB.maxsig
    (setPix (fun _ _ => none) 0 0 (some 3), setPix (fun _ _ => none) 0 0 (some 2),
     setPix (fun _ _ => none) 0 0 (some ((1:ℕ):ℝ)))) := by
  unfold linear_rate
  rw [raw_B]
  rfl

lemma obsmap_F : ([0, 1] : List (Fin 2)).map (fun a => cfgF.obs a 0 0) =
    [some 0, some 10] := by
  simp [cfgF]

lemma spanmap_F : ([0, 1] : List (Fin 2)).map cfgF.span = [1, 11] := by
  simp [cfgF]

lemma subV_F : subV cfgF [0, 1] = [[1, 3], [3, 25]] := by
  simp [subV, cfgF]

lemma bodyAt_F : loopBodyAt cfgF 0 0 [0, 1] = .ok (.reject 0) := by
  unfold loopBodyAt
  rw [obsmap_F, spanmap_F, subV_F]
  have hb := body_E1
  rw [show cfgF.nsig = (6/5 : ℝ) from rfl]
  exact hb

lemma ind_H : indAt cfgH 0 0 = [0] := by rw [indAt_none rfl, finRange_one]

lemma mstU_some {c : Config nifgs rows cols} {m : Fin nifgs → Fin rows → Fin cols → ℝ}
    (h : c.mst = some m) :
    mstU c = fun a i j => if (c.obs a i j).isNone then 0 else m a i j := by
  unfold mstU
  rw [h]

lemma mstU_none {c : Config nifgs rows cols} (h : c.mst = none) :
    mstU c = fun _ _ _ => 1 := by
  unfold mstU
  rw [h]

/-! ### Evaluation of the solver on two observations with identity covariance -/

lemma solveWLS_id2 (t1 t2 y1 y2 : ℝ) (h : t1 * t1 + t2 * t2 ≠ 0) :
    solveWLS [t1, t2] [[1, 0], [0, 1]] [some y1, some y2] =
      .ok ((t1 * y1 + t2 * y2) / (t1 * t1 + t2 * t2),
           errOf [t1, t2] [[1, 0], [0, 1]]) := by
  rw [solveWLS_some cholL_id2]
  have hid : invL [[(1:ℝ), 0], [0, 1]] = [[1, 0], [0, 1]] := by
    rw [invL_two]; norm_num
  rw [hid]
  have hfB : fwdSolve [[(1:ℝ)], [0, 1]] [t1, t2] = [t1, t2] := by
    simp [fwdSolve, dot]
  have hfy : fwdSolve [[(1:ℝ)], [0, 1]]
      (([some y1, some y2] : List FVal).map fun x => x.getD 0) = [y1, y2] := by
    simp [fwdSolve, dot]
  rw [hfB, hfy]
  have hs : sumSq [t1, t2] = t1 * t1 + t2 * t2 := by simp [sumSq, dot]
  have he : dot [t1, t2] (matVec [[(1:ℝ), 0], [0, 1]] [t1, t2]) = t1 * t1 + t2 * t2 := by
    simp [dot, matVec]
  have hd : detL [[(1:ℝ), 0], [0, 1]] = 1 := by rw [detL_two]; norm_num
  rw [hs, he, hd]
  have hdot : dot [t1, t2] [y1, y2] = t1 * y1 + t2 * y2 := by simp [dot]
  rw [hdot]
  simp [h]

/-! ### Driver-level inversion -/

lemma linear_rate_ok {c : Config nifgs rows cols} {g : Grids rows cols}
    (h : linear_rate c = .ok g) :
    ∃ g0, rawGrids c = .ok g0 ∧ g = postFilter c.maxsig g0 := by
  unfold linear_rate at h
  cases hr : rawGrids c with
  | error e => rw [hr] at h; simp [Except.map] at h
  | ok g0 =>
    rw [hr] at h
    simp only [Except.map] at h
    exact ⟨g0, rfl, (Except.ok.inj h).symm⟩

lemma postFilter_samp_some {maxsig : ℝ} {g : Grids rows cols} {i : Fin rows}
    {j : Fin cols} {s : ℝ}
    (h : (postFilter maxsig g).2.2 i j = some s) : g.2.2 i j = some s := by
  unfold postFilter at h
  simp only [] at h
  by_cases hc : fgtB (if fgtB (g.2.1 i j) maxsig then none else g.2.1 i j) maxsig = true
  · rw [if_pos hc] at h; cases h
  · rw [if_neg hc] at h; exact h

/-! ### Claim theorems -/

/-- C1 (counterexample): at `nsig = 6/5`, spans `(1, 11)`, observations
`(0, 10)` and `V = [[1,3],[3,25]]` (fitted rate `v = 1`, residuals
`r = (1,1)`, upper Cholesky factor of `inv(V)` equal to
`[[5/4, -3/20], [0, 1/5]]`), the loop body REMOVES the observation at
position `0` even though the spec-side whitened-residual magnitude
`wr = |W·rᵗ|` has maximum `11/10 ≤ nsig`, so the claim "the observation at
maxi is removed if and only if maxr > nsig" (with `maxr` the maximum of the
matrix product `|W·rᵗ|`) is false of the code. -/
theorem C1_spec_rejection_rule_cex :
    loopBody (6/5 : ℝ) [some 0, some 10] [(1:ℝ), 11] [[1, 3], [3, 25]] =
      .ok (.reject 0) ∧
    cholL (transposeL (invL [[(1:ℝ), 3], [3, 25]])) = some [[5/4], [-3/20, 1/5]] ∧
    resid [(1:ℝ), 11] (([some 0, some 10] : List FVal).map fun x => x.getD 0) 1 =
      [1, 1] ∧
    specMaxr [[(5:ℝ)/4], [-3/20, 1/5]] [1, 1] 2 = 11/10 ∧
    ¬ ((6/5 : ℝ) < 11/10) :=
  ⟨body_E1, cholW_E1ctx, resid_E1, specmaxr_E1, by norm_num⟩

/-- C1 (amended): in every iteration whose solver call and whose
`cholesky(inv(V))` call succeed, the code computes the ELEMENTWISE product
`wr[a][b] = |w[a][b] * r[a]|` (numpy `*`, not a matrix product), takes
`maxr` as the maximum of the DIAGONAL of `wr`, takes `maxi` as the first
row of `wr` containing an entry equal to `maxr` (row-major scan, first
occurrence on ties), and the observation at position `maxi` is removed if
and only if `maxr > nsig`; otherwise the iteration accepts `(v, err)`. -/
theorem C1_amended_rejection_rule {nsig : ℝ} {y : List FVal} {B : List ℝ}
    {Vs : List (List ℝ)} {v : ℝ} {errv : FVal} {WL : List (List ℝ)}
    (hs : solveWLS B Vs y = .ok (v, errv))
    (hW : cholL (transposeL (invL Vs)) = some WL) :
    loopBody nsig y B Vs =
      if nsig < codeMaxr WL (resid B (y.map fun x => x.getD 0) v) Vs.length
      then .ok (.reject (codeMaxi WL (resid B (y.map fun x => x.getD 0) v) Vs.length))
      else .ok (.accept v errv) :=
  loopBody_eq hs hW

/-- Witness for C1 (amended) on the concrete rejection data of the
counterexample configuration. -/
theorem C1_amended_rejection_rule_w :
    loopBody (6/5 : ℝ) [some 0, some 10] [(1:ℝ), 11] [[1, 3], [3, 25]] =
      if (6/5 : ℝ) < codeMaxr [[(5:ℝ)/4], [-3/20, 1/5]]
          (resid [(1:ℝ), 11] (([some 0, some 10] : List FVal).map fun x => x.getD 0) 1)
          ([[(1:ℝ), 3], [3, 25]] : List (List ℝ)).length
      then .ok (.reject (codeMaxi [[(5:ℝ)/4], [-3/20, 1/5]]
          (resid [(1:ℝ), 11] (([some 0, some 10] : List FVal).map fun x => x.getD 0) 1)
          ([[(1:ℝ), 3], [3, 25]] : List (List ℝ)).length))
      else .ok (.accept 1 (errOf [(1:ℝ), 11] [[1, 3], [3, 25]])) :=
  C1_amended_rejection_rule solve_E1 cholW_E1ctx

/-- C2 (code bug): on a 1-pixel grid whose converged error `1` exceeds
`maxsig = 1/2`, the post-filter resets `rate` and `error` to NaN but leaves
the sample count defined (`1`): line 115 recomputes its mask from the
already-overwritten `error` grid, so it never fires. -/
theorem C2_post_filter_samples_bug :
    (rawGrids cfgA).map (fun g => g.2.1 0 0) = .ok (some 1) ∧
    cfgA.maxsig < 1 ∧
    (linear_rate cfgA).map (fun g => (g.1 0 0, g.2.1 0 0, g.2.2 0 0)) =
      .ok (none, none, some ((1:ℕ):ℝ)) := by
  refine ⟨by rw [raw_A]; rfl, by norm_num [cfgA], ?_⟩
  rw [lin_A]
  simp only [Except.map]
  unfold postFilter
  simp only [setPix]
  norm_num [fgtB, cfgA]

/-- C3 (counterexample): with a supplied mask equal to `1` at a NaN
observation, the mask array after the call holds `0` there: the `mst` input
is NOT read-only. -/
theorem C3_inputs_readonly_cex :
    (linear_rate_full cfgG).2.map (fun m => m 0 0 0) = some 0 ∧
    cfgG.mst.map (fun m => m 0 0 0) = some 1 := by
  constructor
  · simp [linear_rate_full, mstAfter, cfgG]
  · rfl

/-- C3 (amended): all inputs except the mask are read-only; when the mask
argument is omitted nothing is mutated, and when it is supplied its final
contents are the original values with every entry at a NaN observation
overwritten by `0`. -/
theorem C3_amended_mst_mutation (c : Config nifgs rows cols) :
    (c.mst = none → (linear_rate_full c).2 = none) ∧
    (∀ m, c.mst = some m → ∃ m2, (linear_rate_full c).2 = some m2 ∧
      ∀ a i j, m2 a i j = if (c.obs a i j).isNone then 0 else m a i j) := by
  constructor
  · intro h
    simp [linear_rate_full, mstAfter, h]
  · intro m h
    exact ⟨_, by simp [linear_rate_full, mstAfter, h], fun a i j => rfl⟩

/-- Witness for C3 (amended): the omitted-mask configuration is untouched,
and the supplied-mask configuration is zeroed at its NaN observation. -/
theorem C3_amended_mst_mutation_w :
    (linear_rate_full cfgA).2 = none ∧
    (linear_rate_full cfgG).2.map (fun m => m 0 0 0) =
      some (if (cfgG.obs 0 0 0).isNone then 0 else 1) := by
  refine ⟨(C3_amended_mst_mutation cfgA).1 rfl, ?_⟩
  obtain ⟨m2, hm2, hp⟩ := (C3_amended_mst_mutation cfgG).2 (fun _ _ _ => 1) rfl
  rw [hm2]
  show some (m2 0 0 0) = some (if (cfgG.obs 0 0 0).isNone then 0 else 1)
  rw [hp 0 0 0]

/-- C4 (counterexample): with the mask argument omitted and the single
observation NaN, the dummy all-ones mask still selects index `0` into the
initial candidate set. -/
theorem C4_nan_exclusion_cex :
    ((0 : Fin 1) ∈ indAt cfgH 0 0) ∧ cfgH.obs 0 0 0 = none ∧ cfgH.mst = none := by
  refine ⟨?_, rfl, rfl⟩
  rw [ind_H]
  simp

/-- C4 (amended): when a mask is supplied, a NaN observation forces its
index out of the initial candidate set; when the mask is omitted, EVERY
index is selected, NaN observations included. -/
theorem C4_amended_nan_exclusion (c : Config nifgs rows cols) (a : Fin nifgs)
    (i : Fin rows) (j : Fin cols) :
    (∀ m, c.mst = some m → (c.obs a i j).isNone = true → a ∉ indAt c i j) ∧
    (c.mst = none → a ∈ indAt c i j) := by
  constructor
  · intro m hm hnan hmem
    unfold indAt at hmem
    rw [List.mem_filter, decide_eq_true_eq] at hmem
    have h2 := hmem.2
    rw [mstU_some hm] at h2
    simp only [hnan, if_true] at h2
    exact absurd h2 (by norm_num)
  · intro hm
    unfold indAt
    rw [List.mem_filter, decide_eq_true_eq]
    exact ⟨List.mem_finRange a, by rw [mstU_none hm]⟩

/-- Witness for C4 (amended) on the two NaN-observation configurations. -/
theorem C4_amended_nan_exclusion_w :
    ((0 : Fin 1) ∉ indAt cfgG 0 0) ∧ ((0 : Fin 1) ∈ indAt cfgH 0 0) :=
  ⟨(C4_amended_nan_exclusion cfgG 0 0 0).1 (fun _ _ _ => 1) rfl rfl,
   (C4_amended_nan_exclusion cfgH 0 0 0).2 rfl⟩

/-- C5 (counterexample): a Cholesky failure at pixel `(0,0)` makes the whole
call raise (no grids for ANY pixel), although pixel `(0,1)` on its own
computes `(2, 1, 1)` successfully: the failure is not contained to the
failing pixel. -/
theorem C5_failure_isolation_cex :
    linear_rate cfgC = .error .notPosDefV ∧
    pixelAt cfgC 0 1 = .ok (some (2, some 1, 1)) :=
  ⟨lin_C, pix_C1⟩

/-- C5 (amended): a per-pixel numerical failure propagates out of the whole
invocation — grids are returned only when EVERY pixel's computation
succeeded, so one pixel's Cholesky failure aborts the processing of all
pixels.  No numeric result is ever substituted for a failing pixel. -/
theorem C5_amended_failure_aborts_all (c : Config nifgs rows cols)
    (g : Grids rows cols) (h : linear_rate c = .ok g) (i : Fin rows) (j : Fin cols) :
    ∃ r, pixelAt c i j = .ok r := by
  obtain ⟨g0, hr, _⟩ := linear_rate_ok h
  exact foldlM_gridStep_all_ok (allPix rows cols) _ g0 hr (i, j) (mem_allPix i j)

/-- Witness for C5 (amended) on a successful 1-pixel run. -/
theorem C5_amended_failure_aborts_all_w : ∃ r, pixelAt cfgD 0 0 = .ok r :=
  C5_amended_failure_aborts_all cfgD _ lin_D 0 0

/-- C6 (counterexample): with `k = 2`, identity covariance, spans `(1, 2)`
and observations `(0, 1)`, the solver's rate is `2/5`, not the two-point
slope `(1-0)/(2-1) = 1`: the model `y ≈ t·v` has no intercept, so two
points are not fitted exactly. -/
theorem C6_two_point_slope_cex :
    (solveWLS [(1:ℝ), 2] [[1, 0], [0, 1]] [some 0, some 1]).map Prod.fst =
      .ok (2/5) ∧
    twoPointSlope 1 2 0 1 = 1 ∧ ((2:ℝ)/5) ≠ 1 := by
  refine ⟨?_, by unfold twoPointSlope; norm_num, by norm_num⟩
  rw [solveWLS_id2 1 2 0 1 (by norm_num)]
  simp only [Except.map]
  norm_num

/-- C6 (amended): for two selected observations with identity covariance
the solver's rate estimate is the no-intercept least-squares projection
`(t1·y1 + t2·y2) / (t1² + t2²)`. -/
theorem C6_amended_two_obs_rate (t1 t2 y1 y2 : ℝ) (h : t1 * t1 + t2 * t2 ≠ 0) :
    (solveWLS [t1, t2] [[1, 0], [0, 1]] [some y1, some y2]).map Prod.fst =
      .ok ((t1 * y1 + t2 * y2) / (t1 * t1 + t2 * t2)) := by
  rw [solveWLS_id2 t1 t2 y1 y2 h]
  rfl

/-- Witness for C6 (amended) at spans `(3, 4)`, observations `(1, 2)`. -/
theorem C6_amended_two_obs_rate_w :
    (solveWLS [(3:ℝ), 4] [[1, 0], [0, 1]] [some 1, some 2]).map Prod.fst =
      .ok ((3 * 1 + 4 * 2) / (3 * 3 + 4 * 4)) :=
  C6_amended_two_obs_rate 3 4 1 2 (by norm_num)

/-- C7 (code bug): a pixel whose error `2` exceeds `maxsig = 1` ends with
`rate = NaN`, `error = NaN` but `samples = 1` defined — a partial triple,
contradicting the all-or-nothing claim (same root cause as the C2 bug:
line 115 is dead). -/
theorem C7_all_or_nothing_bug :
    (linear_rate cfgB).map (fun g => (g.1 0 0, g.2.1 0 0, g.2.2 0 0)) =
      .ok (none, none, some ((1:ℕ):ℝ)) ∧
    (some ((1:ℕ):ℝ) : FVal) ≠ none := by
  refine ⟨?_, by simp⟩
  rw [lin_B]
  simp only [Except.map]
  unfold postFilter
  simp only [setPix]
  norm_num [fgtB, cfgB]

/-- C8: each rejection deletes exactly one element of the candidate set
(strict decrease), and the while loop of any pixel executes at most
`initial_size - pthr + 1` body iterations. -/
theorem C8_rejection_monotonic_bounded (c : Config nifgs rows cols)
    (i : Fin rows) (j : Fin cols) :
    (∀ (ind : List (Fin nifgs)) (m : ℕ), loopBodyAt c i j ind = .ok (.reject m) →
      (ind.eraseIdx m).length + 1 = ind.length) ∧
    pixelIters c i j (nifgs + 1) (indAt c i j) ≤ (indAt c i j).length - c.pthr + 1 := by
  constructor
  · intro ind m hb
    have hm := loopBodyAt_reject_lt hb
    rw [List.length_eraseIdx_of_lt hm]
    omega
  · have hlen : (indAt c i j).length ≤ nifgs := by
      unfold indAt
      calc ((List.finRange nifgs).filter _).length
          ≤ (List.finRange nifgs).length := List.length_filter_le _ _
        _ = nifgs := List.length_finRange nifgs
    have hb := pixelIters_le (c := c) (i := i) (j := j) (nifgs + 1) (indAt c i j) (by omega)
    omega

/-- Witness for C8 on the two-interferogram rejection configuration. -/
theorem C8_rejection_monotonic_bounded_w :
    (([0, 1] : List (Fin 2)).eraseIdx 0).length + 1 = ([0, 1] : List (Fin 2)).length ∧
    pixelIters cfgF 0 0 (2 + 1) (indAt cfgF 0 0) ≤ (indAt cfgF 0 0).length - cfgF.pthr + 1 :=
  ⟨(C8_rejection_monotonic_bounded cfgF 0 0).1 [0, 1] 0 bodyAt_F,
   (C8_rejection_monotonic_bounded cfgF 0 0).2⟩

/-- C9: whenever the sample-count output at a pixel is a defined number, it
is at least `pthr`: results are recorded only under the loop guard
`len(ind) >= pthr`, and the post-filter can only erase cells. -/
theorem C9_samples_ge_pthr (c : Config nifgs rows cols) (g : Grids rows cols)
    (h : linear_rate c = .ok g) (i : Fin rows) (j : Fin cols) (s : ℝ)
    (hs : g.2.2 i j = some s) : (c.pthr : ℝ) ≤ s := by
  obtain ⟨g0, hr, rfl⟩ := linear_rate_ok h
  have hg0 := postFilter_samp_some hs
  exact foldlM_gridStep_sampInv (allPix rows cols) _ g0 hr
    (fun i j s hs0 => by simp at hs0) i j s hg0

/-- Witness for C9 on a successful 1-pixel run with `pthr = 1`. -/
theorem C9_samples_ge_pthr_w : ((cfgE.pthr : ℕ) : ℝ) ≤ ((1:ℕ):ℝ) :=
  C9_samples_ge_pthr cfgE _ lin_E 0 0 _ sampcell_E

/-- C10: the solver's reported standard error depends only on the selected
time spans and the covariance submatrix — two successful runs on the same
design row and covariance but different observation vectors report the same
error. -/
theorem C10_err_independent_of_obs {B : List ℝ} {Vs : List (List ℝ)}
    {y1 y2 : List FVal} {v1 v2 : ℝ} {e1 e2 : FVal}
    (h1 : solveWLS B Vs y1 = .ok (v1, e1)) (h2 : solveWLS B Vs y2 = .ok (v2, e2)) :
    e1 = e2 := by
  rw [solveWLS_ok_err h1, solveWLS_ok_err h2]

/-- Witness for C10: observation vectors `(0)` and `(7)` give the same
reported error `1`. -/
theorem C10_err_independent_of_obs_w : (some (1:ℝ) : FVal) = some 1 :=
  C10_err_independent_of_obs solve_A solve_A7

end PyRate
